import Mathlib

/-!
Verification of the kptv-fast streaming aggregator.

The Python sources are shallowly embedded: dictionaries holding channel data
become structures (an absent string key and an empty string behave identically
at every use site modelled here, so both are represented by the empty string),
the mutable loops become structural recursions threading their state, and the
string primitives the code relies on (lower, strip, startswith, endswith,
replace, title, substring membership, slicing) are re-implemented over the
underlying character lists so that every definition evaluates by kernel
reduction.
-/

namespace KptvFast

/-! ### Python string primitives, over character lists -/

/-- Python str.lower restricted to its effect on the characters used here. -/
def strLower (s : String) : String := ⟨s.data.map Char.toLower⟩

/-- Drop whitespace from both ends of a character list (Python str.strip). -/
def stripChars (l : List Char) : List Char :=
  ((l.dropWhile Char.isWhitespace).reverse.dropWhile Char.isWhitespace).reverse

/-- Python str.strip. -/
def pyStrip (s : String) : String := ⟨stripChars s.data⟩

/-- Whether the first list is a prefix of the second, by character equality. -/
def listPrefixOf : List Char → List Char → Bool
  | [], _ => true
  | _ :: _, [] => false
  | a :: as, b :: bs => a == b && listPrefixOf as bs

/-- Python str.startswith. -/
def strStartsWith (s pre : String) : Bool := listPrefixOf pre.data s.data

/-- Python str.endswith. -/
def strEndsWith (s suf : String) : Bool := listPrefixOf suf.data.reverse s.data.reverse

/-- Python substring membership (needle in hay) on character lists. -/
def subListOf (needle : List Char) : List Char → Bool
  | [] => listPrefixOf needle []
  | h :: t => listPrefixOf needle (h :: t) || subListOf needle t

/-- Python substring membership: needle in hay. -/
def strContainsSub (hay needle : String) : Bool := subListOf needle.data hay.data

/-- Python str.replace for a non-empty pattern, fuelled by the input length
(each step consumes at least one input character, so the fuel suffices). -/
def pyReplaceAux (old new : List Char) : Nat → List Char → List Char
  | 0, rest => rest
  | _ + 1, [] => []
  | fuel + 1, x :: xs =>
    if listPrefixOf old (x :: xs) then
      new ++ pyReplaceAux old new fuel (List.drop (old.length - 1) xs)
    else
      x :: pyReplaceAux old new fuel xs

/-- Python str.replace (all occurrences, scanning left to right). -/
def pyReplace (s old new : String) : String :=
  ⟨pyReplaceAux old.data new.data s.data.length s.data⟩

/-- Python str.title on a character list: a cased character is uppercased when
the previous character is not alphabetic, lowercased otherwise. -/
def pyTitleAux (prevAlpha : Bool) : List Char → List Char
  | [] => []
  | c :: cs =>
    (if c.isAlpha then (if prevAlpha then c.toLower else c.toUpper) else c)
      :: pyTitleAux c.isAlpha cs

/-- Python str.title. -/
def pyTitle (s : String) : String := ⟨pyTitleAux false s.data⟩

/-- Python slice s[a:-b]: drop a characters at the front, b at the back. -/
def strSlice (s : String) (a b : Nat) : String :=
  let t := s.data.drop a
  ⟨t.take (t.length - b)⟩

/-! ### The channel record used by app.py

Fields mirror the keys of the channel dictionaries; an absent key is the
empty string (for string-valued keys) or none (for the numeric keys). -/

structure Channel where
  id : String := ""
  name : String := ""
  logo : String := ""
  group : String := ""
  provider : String := ""
  stream_url : String := ""
  number : Option Nat := none
  channel_number : Option Nat := none
deriving DecidableEq

/-! ### app.py UnifiedStreamingAggregator.-is-cache-valid and cache writes

A cache entry is a recorded expiry instant; writing at time now stores
now + cache-duration, and a read is valid while the current time is strictly
below the stored expiry. -/

/-- Expiry stored when the cache is written: time of the write plus the
configured cache duration (app.py line 430). -/
def storeExpiry (now duration : Nat) : Nat := now + duration

/-- The aggregator validity test (app.py lines 275-278): the key must have a
recorded expiry and the current time must be strictly below it. -/
def isCacheValid (expiry : Option Nat) (now : Nat) : Bool :=
  match expiry with
  | none => false
  | some e => decide (now < e)

/-! ### app.py UnifiedStreamingAggregator.-remove-duplicates -/

/-- The composite deduplication key (app.py lines 315-318):
(name.lower().strip(), stream_url). -/
def chanKey (c : Channel) : String × String :=
  (pyStrip (strLower c.name), c.stream_url)

/-- The dedup loop of app.py lines 310-322: a channel is kept when its key is
unseen and both key components are non-empty (Python truthiness on strings),
and its key is then added to the seen set. -/
def removeDuplicatesAux (seen : List (String × String)) : List Channel → List Channel
  | [] => []
  | c :: cs =>
    if chanKey c ∉ seen ∧ (chanKey c).1 ≠ "" ∧ (chanKey c).2 ≠ "" then
      c :: removeDuplicatesAux (chanKey c :: seen) cs
    else
      removeDuplicatesAux seen cs

/-- app.py UnifiedStreamingAggregator.-remove-duplicates, starting from an
empty seen set. -/
def removeDuplicates (channels : List Channel) : List Channel :=
  removeDuplicatesAux [] channels

/-! ### app.py UnifiedStreamingAggregator.-apply-filters -/

/-- The four regex filter settings read from the environment (app.py lines
61-64); the empty string means the filter is unset. -/
structure FilterConfig where
  channel_name_include : String := ""
  channel_name_exclude : String := ""
  group_include : String := ""
  group_exclude : String := ""
deriving DecidableEq

/-- The per-channel keep decision of app.py lines 288-304, with the regular
expression engine abstracted as a search oracle (pattern to text to found);
case insensitivity is part of the oracle. Each of the four Python continue
guards becomes one conjunct. -/
def keepChannel (cfg : FilterConfig) (search : String → String → Bool) (c : Channel) : Bool :=
  (decide (cfg.channel_name_include = "") || search cfg.channel_name_include c.name) &&
  (decide (cfg.channel_name_exclude = "") || !search cfg.channel_name_exclude c.name) &&
  (decide (cfg.group_include = "") || search cfg.group_include c.group) &&
  (decide (cfg.group_exclude = "") || !search cfg.group_exclude c.group)

/-- app.py UnifiedStreamingAggregator.-apply-filters: channels pass through
untouched when no filter is configured, else each channel must pass all four
guards. -/
def applyFilters (cfg : FilterConfig) (search : String → String → Bool)
    (channels : List Channel) : List Channel :=
  if cfg.channel_name_include = "" ∧ cfg.channel_name_exclude = "" ∧
      cfg.group_include = "" ∧ cfg.group_exclude = "" then
    channels
  else
    channels.filter (keepChannel cfg search)

/-! ### utils/epg_fallback.py EPGFallbackManager.-map-channel-id -/

/-- Everything after the first dash: Python external_id.split(chr 45, 1)[1]. -/
def afterFirstDash : List Char → List Char
  | [] => []
  | x :: xs => if x == '-' then xs else afterFirstDash xs

/-- Map an external EPG channel id to the internal id format
(utils/epg_fallback.py lines 149-176). The Python function always returns a
string on these branches, so the embedding returns String. -/
def mapChannelId (externalId providerName : String) : String :=
  if providerName = "pluto" then
    if strStartsWith externalId "pluto-" then externalId else "pluto-" ++ externalId
  else if providerName = "plex" then
    if externalId.data.contains '-' ∧ strStartsWith externalId "plex-" = false then
      "plex-" ++ String.mk (afterFirstDash externalId.data)
    else if strStartsWith externalId "plex-" then externalId else "plex-" ++ externalId
  else if providerName = "tubi" then
    if strStartsWith externalId "tubi-" then externalId else "tubi-" ++ externalId
  else if providerName = "xumo" then
    externalId
  else if providerName = "samsung" then
    if strStartsWith externalId "samsung-" then externalId else "samsung-" ++ externalId
  else if providerName = "distrotv" then
    if strStartsWith externalId "distrotv-" then externalId else "distrotv-" ++ externalId
  else if providerName = "lg" then
    if strStartsWith externalId "lg-" then externalId else "lg-" ++ externalId
  else if providerName = "stirr" then
    if strStartsWith externalId "stirr-" then externalId else "stirr-" ++ externalId
  else
    externalId

/-! ### app.py UnifiedStreamingAggregator.-get-all-channels-concurrent:
provider stamping and channel-number assignment (lines 392-415)

Provider results arrive in completion order as (provider name, channels)
pairs; a single counter starting at 1 is threaded through every channel of
every result, and each channel receives the upstream number when present,
else the current counter value; the counter advances once per channel in
either case. -/

/-- The inner loop of app.py lines 410-413 for one provider result. -/
def assignProviderChannels (providerName : String) (counter : Nat) :
    List Channel → List Channel
  | [] => []
  | c :: cs =>
    { c with provider := providerName, channel_number := some (c.number.getD counter) }
      :: assignProviderChannels providerName (counter + 1) cs

/-- The outer loop over completed provider futures (app.py lines 403-415). -/
def collectProviderResults (counter : Nat) :
    List (String × List Channel) → List Channel
  | [] => []
  | (pname, chs) :: rest =>
    assignProviderChannels pname counter chs
      ++ collectProviderResults (counter + chs.length) rest

/-- The numbering stage of the concurrent fetch, counter starting at 1. -/
def getAllChannelsNumbered (results : List (String × List Channel)) : List Channel :=
  collectProviderResults 1 results

/-- All provider channels flattened in the processing (completion) order. -/
def allProviderChannels : List (String × List Channel) → List Channel
  | [] => []
  | (_, chs) :: rest => chs ++ allProviderChannels rest

/-- Comparison definition for the amended C1, following the spec text: each
channel is assigned its upstream number if present, else the value of a
shared counter that advances once per channel processed. -/
def expectedNumbers (counter : Nat) : List Channel → List (Option Nat)
  | [] => []
  | c :: cs => some (c.number.getD counter) :: expectedNumbers (counter + 1) cs

/-! ### providers/stirr_provider.py StirrProvider.get_channels merge
(lines 290-325) -/

/-- The merge step of StirrProvider.get_channels: when the native API yields
fewer than 10 channels and the M3U fallback is non-empty, append every
fallback channel whose lowercased name is not among the lowercased native
names (the set of existing names is computed once from the native channels
and not updated during the loop). -/
def stirrMergeChannels (apiChannels m3uChannels : List Channel) : List Channel :=
  if apiChannels.length < 10 then
    if m3uChannels.isEmpty then apiChannels
    else
      apiChannels ++ m3uChannels.filter
        (fun ch => !((apiChannels.map (fun c => strLower c.name)).contains (strLower ch.name)))
  else apiChannels

/-- Concrete native channel list for the Stirr witness (3 channels). -/
def stirrApiDemo : List Channel :=
  [{ name := "Alpha", stream_url := "a" }, { name := "Beta", stream_url := "b" },
   { name := "Gamma", stream_url := "c" }]

/-- Concrete fallback channel list for the Stirr witness: 50 channels, two of
which share a case-insensitive name with a native channel. -/
def stirrM3uDemo : List Channel :=
  ({ name := "ALPHA", stream_url := "x1" } : Channel)
    :: ({ name := "beta", stream_url := "x2" } : Channel)
    :: (List.range 48).map (fun i => { name := "Chan" ++ Nat.repr i, stream_url := "y" })

/-! ### utils/epg_aggregator.py EPGAggregator.get_combined_epg combination
step (lines 136-151)

A fetched source document is a list of channel elements and a list of
programme elements; channel and programme payloads beyond the id attribute
are opaque strings. An absent id attribute and an empty one are both falsy at
the only use site and are represented by the empty string. -/

/-- A channel element of a source document: its id attribute and its opaque
remaining content. -/
structure XmlChannel where
  id : String := ""
  content : String := ""
deriving DecidableEq

/-- A programme element of a source document, opaque to the combiner. -/
structure XmlProgramme where
  content : String := ""
deriving DecidableEq

/-- A successfully fetched and parsed source document. -/
structure SourceDoc where
  channels : List XmlChannel := []
  programmes : List XmlProgramme := []
deriving DecidableEq

/-- The channel elements one source contributes: those with a truthy id not
already in the added set, which then join the set (lines 138-143). -/
def combineKept (added : List String) : List XmlChannel → List XmlChannel
  | [] => []
  | ch :: rest =>
    if ch.id ≠ "" ∧ ch.id ∉ added then ch :: combineKept (ch.id :: added) rest
    else combineKept added rest

/-- The added-id set after one source's channel loop. -/
def combineSeen (added : List String) : List XmlChannel → List String
  | [] => added
  | ch :: rest =>
    if ch.id ≠ "" ∧ ch.id ∉ added then combineSeen (ch.id :: added) rest
    else combineSeen added rest

/-- The channel elements appended to the root across all completed sources,
sharing one added-id set (the channels-added set of line 71). -/
def combineDocsChannels (added : List String) : List SourceDoc → List XmlChannel
  | [] => []
  | d :: ds =>
    combineKept added d.channels ++ combineDocsChannels (combineSeen added d.channels) ds

/-- The programme elements appended to the root across all completed sources:
every programme of every source, unconditionally (lines 146-149). -/
def combineDocsProgrammes : List SourceDoc → List XmlProgramme
  | [] => []
  | d :: ds => d.programmes ++ combineDocsProgrammes ds

/-- Channel elements of the combined document, starting from an empty set. -/
def getCombinedChannels (docs : List SourceDoc) : List XmlChannel :=
  combineDocsChannels [] docs

/-- Programme elements of the combined document. -/
def getCombinedProgrammes (docs : List SourceDoc) : List XmlProgramme :=
  combineDocsProgrammes docs

/-- All channel elements of all sources, flattened in completion order. -/
def allSourceChannels : List SourceDoc → List XmlChannel
  | [] => []
  | d :: ds => d.channels ++ allSourceChannels ds

/-! ### utils/epg_aggregator.py EPGAggregator.set_enabled_sources
(lines 181-190) -/

/-- The aggregator state touched by set_enabled_sources: the source table
(name, url), the enabled names, and the cached combined EPG with its
expiry. -/
structure EPGAggState where
  epgSources : List (String × String)
  enabledSources : List String
  cache : Option String
  cacheExpiry : Nat
deriving DecidableEq

/-- utils/epg_aggregator.py set_enabled_sources: keep the requested names
that are known source names; when at least one survives, install them as the
enabled list and invalidate the cache, else do nothing. -/
def setEnabledSources (st : EPGAggState) (sources : List String) : EPGAggState :=
  let validSources := sources.filter (fun s => decide (s ∈ st.epgSources.map (fun p => p.1)))
  if validSources.isEmpty then st
  else { st with enabledSources := validSources, cache := none, cacheExpiry := 0 }

/-- The source table built in EPGAggregator.init (lines 28-42). -/
def initialEpgSources : List (String × String) :=
  [("plex", "https://i.mjh.nz/Plex/all.xml"),
   ("pluto", "https://i.mjh.nz/PlutoTV/all.xml"),
   ("samsung", "https://i.mjh.nz/SamsungTVPlus/all.xml"),
   ("stirr", "https://i.mjh.nz/Stirr/all.xml"),
   ("tubi", "https://raw.githubusercontent.com/BuddyChewChew/tubi-scraper/main/tubi_epg.xml"),
   ("xumo", "https://raw.githubusercontent.com/BuddyChewChew/xumo-playlist-generator/main/playlists/xumo_epg.xml"),
   ("plex_epgshare", "https://epgshare01.online/epgshare01/epg_ripper_PLEX1.xml.gz"),
   ("distrotv_epgshare", "https://epgshare01.online/epgshare01/epg_ripper_DISTROTV1.xml.gz")]

/-- The freshly initialised aggregator state (lines 22-47). -/
def initialEpgAggState : EPGAggState :=
  { epgSources := initialEpgSources,
    enabledSources := ["plex", "pluto", "samsung", "stirr", "tubi", "xumo"],
    cache := none, cacheExpiry := 0 }

/-! ### providers/git_providers.py GitFreetvProvider country filtering and
source naming -/

/-- The country code table of GitFreetvProvider.-build-country-mapping
(lines 354-403). -/
def countryMapping : List (String × List String) :=
  [("us", ["us", "usa", "united states", "america"]),
   ("uk", ["uk", "gb", "gbr", "united kingdom", "britain"]),
   ("ca", ["ca", "can", "canada"]),
   ("de", ["de", "deu", "germany", "deutschland"]),
   ("fr", ["fr", "fra", "france"]),
   ("au", ["au", "aus", "australia"]),
   ("jp", ["jp", "jpn", "japan"]),
   ("in", ["in", "ind", "india"]),
   ("br", ["br", "bra", "brazil", "brasil"]),
   ("it", ["it", "ita", "italy", "italia"]),
   ("es", ["es", "esp", "spain", "españa"]),
   ("mx", ["mx", "mex", "mexico"]),
   ("ru", ["ru", "rus", "russia"]),
   ("cn", ["cn", "chn", "china"]),
   ("kr", ["kr", "kor", "south korea", "korea"]),
   ("nl", ["nl", "nld", "netherlands", "holland"]),
   ("se", ["se", "swe", "sweden"]),
   ("no", ["no", "nor", "norway"]),
   ("dk", ["dk", "dnk", "denmark"]),
   ("fi", ["fi", "fin", "finland"]),
   ("pl", ["pl", "pol", "poland"]),
   ("ar", ["ar", "arg", "argentina"]),
   ("cl", ["cl", "chl", "chile"]),
   ("co", ["co", "col", "colombia"]),
   ("pe", ["pe", "per", "peru"]),
   ("za", ["za", "zaf", "south africa"]),
   ("eg", ["eg", "egy", "egypt"]),
   ("tr", ["tr", "tur", "turkey"]),
   ("gr", ["gr", "grc", "greece"]),
   ("pt", ["pt", "prt", "portugal"]),
   ("ie", ["ie", "irl", "ireland"]),
   ("be", ["be", "bel", "belgium"]),
   ("ch", ["ch", "che", "switzerland"]),
   ("at", ["at", "aut", "austria"]),
   ("cz", ["cz", "cze", "czech republic"]),
   ("hu", ["hu", "hun", "hungary"]),
   ("ro", ["ro", "rou", "romania"]),
   ("bg", ["bg", "bgr", "bulgaria"]),
   ("hr", ["hr", "hrv", "croatia"]),
   ("si", ["si", "svn", "slovenia"]),
   ("sk", ["sk", "svk", "slovakia"]),
   ("lt", ["lt", "ltu", "lithuania"]),
   ("lv", ["lv", "lva", "latvia"]),
   ("ee", ["ee", "est", "estonia"])]

/-- GitFreetvProvider.-matches-country-filter (lines 405-449): an empty
filter matches everything; a playlist_<country>.m3u8 name is stripped to its
country part (cut at the first underscore) and checked against the filter
directly and through the code table; failing that, plain substring matching
against the lowercased filename applies, directly and through the table. -/
def matchesCountryFilter (countryFilter : List String) (filename : String) : Bool :=
  if countryFilter.isEmpty then true
  else
    let filenameLower := strLower filename
    let structuredHit :=
      if strStartsWith filenameLower "playlist_" && strEndsWith filenameLower ".m3u8" then
        let countryPart0 := strSlice filenameLower 9 5
        let countryPart : String :=
          if countryPart0.data.contains '_' then
            ⟨countryPart0.data.takeWhile (fun c => !(c == '_'))⟩
          else countryPart0
        countryFilter.any (fun c => c == countryPart) ||
        countryMapping.any (fun p =>
          p.2.any (fun v => countryFilter.contains v) &&
          (p.1 == countryPart || p.2.any (fun v => v == countryPart)))
      else false
    if structuredHit then true
    else
      countryFilter.any (fun c => strContainsSub filenameLower c) ||
      countryMapping.any (fun p =>
        p.2.any (fun v => countryFilter.contains v) &&
        (strContainsSub filenameLower p.1 || p.2.any (fun v => strContainsSub filenameLower v)))

/-- The human-readable source name of GitFreetvProvider.-fetch-and-parse-m3u
(lines 572-575): strip the playlist prefix and m3u8 suffix, turn underscores
into spaces, title-case, and special-case a result whose lowercase form is
exactly usa. -/
def sourceNameOf (fileName : String) : String :=
  let base := pyTitle (pyReplace (pyReplace (pyReplace fileName "playlist_" "") ".m3u8" "") "_" " ")
  if strLower base == "usa" then "USA" else base

/-! ### app.py UnifiedStreamingAggregator.get_playlist (lines 480-507) -/

/-- One key="value" attribute as rendered into the EXTINF line. -/
def attrStr (key value : String) : String := key ++ "=\"" ++ value ++ "\""

/-- The conditional attribute list of app.py lines 487-499, in source order;
a string field contributes when non-empty, the channel number when present
and non-zero (Python truthiness on ints). -/
def extinfAttrs (c : Channel) : List String :=
  (if c.id = "" then [] else [attrStr "tvg-id" c.id]) ++
  (if c.name = "" then [] else [attrStr "tvg-name" c.name]) ++
  (if c.logo = "" then [] else [attrStr "tvg-logo" c.logo]) ++
  (if c.group = "" then [] else [attrStr "group-title" c.group]) ++
  (match c.channel_number with
   | none => []
   | some n => if n = 0 then [] else [attrStr "tvg-chno" (Nat.repr n)]) ++
  (if c.provider = "" then [] else [attrStr "provider" c.provider])

/-- Space-join of the EXTINF parts (Python space.join). -/
def joinSpace : List String → String
  | [] => ""
  | [x] => x
  | x :: xs => x ++ " " ++ joinSpace xs

/-- The full EXTINF line (app.py line 504): the joined parts, a comma, and
the display name. The Python default Unknown applies only to a channel
dictionary lacking the name key, which this model identifies with an empty
name. -/
def extinfLine (c : Channel) : String :=
  joinSpace ("#EXTINF:-1" :: extinfAttrs c) ++ "," ++ c.name

/-- The three lines appended per channel (app.py line 505): the EXTINF line,
the stream URL, and a blank line. -/
def channelLines (c : Channel) : List String := [extinfLine c, c.stream_url, ""]

/-- Lines appended for a channel list. -/
def playlistLinesAux : List Channel → List String
  | [] => []
  | c :: cs => channelLines c ++ playlistLinesAux cs

/-- The generated playlist line list, headed by the format marker. -/
def getPlaylistLines (channels : List Channel) : List String :=
  "#EXTM3U" :: playlistLinesAux channels

/-- Comparison definition for C8, following the spec text: the six
attributes in the fixed order shown, each emitted exactly when its source
field is non-empty (the channel number counting as missing when absent or
zero). -/
def specAttrs (c : Channel) : List String :=
  [if c.id = "" then none else some (attrStr "tvg-id" c.id),
   if c.name = "" then none else some (attrStr "tvg-name" c.name),
   if c.logo = "" then none else some (attrStr "tvg-logo" c.logo),
   if c.group = "" then none else some (attrStr "group-title" c.group),
   (match c.channel_number with
    | none => none
    | some n => if n = 0 then none else some (attrStr "tvg-chno" (Nat.repr n))),
   if c.provider = "" then none else some (attrStr "provider" c.provider)].reduceOption

end KptvFast

open KptvFast

/-- C6: a cache entry written at time T with CACHE_DURATION = 7200 has expiry
T + 7200; a read is valid exactly when the reading time is strictly below the
expiry, so a read at T + 7199 sees a valid entry and a read at T + 7201 sees
an invalid one. -/
theorem c6_cache_validity (T : Nat) :
    storeExpiry T 7200 = T + 7200 ∧
    isCacheValid (some (storeExpiry T 7200)) (T + 7199) = true ∧
    isCacheValid (some (storeExpiry T 7200)) (T + 7201) = false ∧
    ∀ now e : Nat, isCacheValid (some e) now = true ↔ now < e := by
  refine ⟨rfl, ?_, ?_, ?_⟩
  · simp [isCacheValid, storeExpiry]
  · simp [isCacheValid, storeExpiry]
  · intro now e
    simp [isCacheValid]

/-- Witness for C6 at T = 1000: the expiry is 8200, a read at 8199 is valid
and a read at 8201 is not. -/
theorem c6_cache_validity_witness :
    storeExpiry 1000 7200 = 8200 ∧
    isCacheValid (some (storeExpiry 1000 7200)) 8199 = true ∧
    isCacheValid (some (storeExpiry 1000 7200)) 8201 = false := by
  have h := c6_cache_validity 1000
  exact ⟨h.1, h.2.1, h.2.2.1⟩

/-- C4: the fallback manager maps the compound Plex guide id to the segment
after the first hyphen prefixed with the provider name, and prefixes a bare
Pluto id. -/
theorem c4_map_channel_id :
    mapChannelId "5e20b730f2f8d5003d739db7-61e805952502a7a6fa84d70f" "plex"
      = "plex-61e805952502a7a6fa84d70f" ∧
    mapChannelId "12345" "pluto" = "pluto-12345" := by
  constructor <;> decide

namespace KptvFast

/-- Every channel surviving the dedup loop has an unseen key with two
non-empty components. -/
theorem removeDuplicatesAux_mem {l : List Channel} :
    ∀ {seen : List (String × String)} {c : Channel}, c ∈ removeDuplicatesAux seen l →
      chanKey c ∉ seen ∧ (chanKey c).1 ≠ "" ∧ (chanKey c).2 ≠ "" := by
  induction l with
  | nil => intro seen c h; simp [removeDuplicatesAux] at h
  | cons c0 cs ih =>
    intro seen c h
    by_cases hc : chanKey c0 ∉ seen ∧ (chanKey c0).1 ≠ "" ∧ (chanKey c0).2 ≠ ""
    · rw [removeDuplicatesAux, if_pos hc] at h
      rcases List.mem_cons.mp h with rfl | hmem
      · exact hc
      · have h2 := ih hmem
        exact ⟨fun hs => h2.1 (List.mem_cons_of_mem _ hs), h2.2⟩
    · rw [removeDuplicatesAux, if_neg hc] at h
      exact ih h

/-- The dedup loop output is a sublist of its input. -/
theorem removeDuplicatesAux_sublist (l : List Channel) :
    ∀ seen, (removeDuplicatesAux seen l).Sublist l := by
  induction l with
  | nil => intro seen; simp [removeDuplicatesAux]
  | cons c0 cs ih =>
    intro seen
    rw [removeDuplicatesAux]
    split
    · exact .cons₂ _ (ih _)
    · exact .cons _ (ih _)

/-- Distinct channels in the dedup loop output carry distinct keys. -/
theorem removeDuplicatesAux_pairwise (l : List Channel) :
    ∀ seen, (removeDuplicatesAux seen l).Pairwise (fun a b => chanKey a ≠ chanKey b) := by
  induction l with
  | nil => intro seen; simp [removeDuplicatesAux]
  | cons c0 cs ih =>
    intro seen
    rw [removeDuplicatesAux]
    split
    · refine List.Pairwise.cons ?_ (ih _)
      intro b hb hkey
      exact (removeDuplicatesAux_mem hb).1 (by rw [← hkey]; exact List.mem_cons_self _ _)
    · exact ih _

/-- Every input channel with a good, unseen key is represented in the dedup
loop output by a channel with the same key. -/
theorem removeDuplicatesAux_cover (l : List Channel) :
    ∀ seen (c : Channel), c ∈ l → (chanKey c).1 ≠ "" → (chanKey c).2 ≠ "" →
      chanKey c ∉ seen → ∃ c2 ∈ removeDuplicatesAux seen l, chanKey c2 = chanKey c := by
  induction l with
  | nil => intro seen c hc; simp at hc
  | cons c0 cs ih =>
    intro seen c hc h1 h2 hs
    rw [removeDuplicatesAux]
    rcases List.mem_cons.mp hc with rfl | hmem
    · rw [if_pos ⟨hs, h1, h2⟩]
      exact ⟨c, List.mem_cons_self _ _, rfl⟩
    · by_cases hcond : chanKey c0 ∉ seen ∧ (chanKey c0).1 ≠ "" ∧ (chanKey c0).2 ≠ ""
      · rw [if_pos hcond]
        by_cases hk : chanKey c = chanKey c0
        · exact ⟨c0, List.mem_cons_self _ _, hk.symm⟩
        · have hs2 : chanKey c ∉ chanKey c0 :: seen := by
            intro hmem2
            rcases List.mem_cons.mp hmem2 with h | h
            · exact hk h
            · exact hs h
          obtain ⟨c2, hc2, hkey⟩ := ih _ c hmem h1 h2 hs2
          exact ⟨c2, List.mem_cons_of_mem _ hc2, hkey⟩
      · rw [if_neg hcond]
        exact ih _ c hmem h1 h2 hs

/-- Every channel in the dedup loop output is the first input channel bearing
its key. -/
theorem removeDuplicatesAux_first (l : List Channel) :
    ∀ seen c2, c2 ∈ removeDuplicatesAux seen l →
      l.find? (fun d => decide (chanKey d = chanKey c2)) = some c2 := by
  induction l with
  | nil => intro seen c2 h; simp [removeDuplicatesAux] at h
  | cons c0 cs ih =>
    intro seen c2 h
    rw [removeDuplicatesAux] at h
    by_cases hcond : chanKey c0 ∉ seen ∧ (chanKey c0).1 ≠ "" ∧ (chanKey c0).2 ≠ ""
    · rw [if_pos hcond] at h
      rcases List.mem_cons.mp h with rfl | hmem
      · rw [List.find?_cons_of_pos _ (by simp)]
      · have hne : chanKey c0 ≠ chanKey c2 := by
          intro he
          exact (removeDuplicatesAux_mem hmem).1 (by rw [← he]; exact List.mem_cons_self _ _)
        rw [List.find?_cons_of_neg _ (by simp [hne])]
        exact ih _ _ hmem
    · rw [if_neg hcond] at h
      have h2 := removeDuplicatesAux_mem h
      have hne : chanKey c0 ≠ chanKey c2 := by
        intro he
        exact hcond ⟨by rw [he]; exact h2.1, by rw [he]; exact h2.2.1, by rw [he]; exact h2.2.2⟩
      rw [List.find?_cons_of_neg _ (by simp [hne])]
      exact ih _ _ h

/-- A list of channels whose keys are good, unseen and pairwise distinct
passes through the dedup loop unchanged. -/
theorem removeDuplicatesAux_stable (l : List Channel) :
    ∀ seen, (∀ c ∈ l, chanKey c ∉ seen ∧ (chanKey c).1 ≠ "" ∧ (chanKey c).2 ≠ "") →
      l.Pairwise (fun a b => chanKey a ≠ chanKey b) →
      removeDuplicatesAux seen l = l := by
  induction l with
  | nil => intro seen _ _; rfl
  | cons c0 cs ih =>
    intro seen hall hpw
    have hc0 := hall c0 (List.mem_cons_self _ _)
    rw [removeDuplicatesAux, if_pos hc0]
    congr 1
    refine ih _ ?_ (List.pairwise_cons.mp hpw).2
    intro c hc
    have h := hall c (List.mem_cons_of_mem _ hc)
    have hne : chanKey c0 ≠ chanKey c := (List.pairwise_cons.mp hpw).1 c hc
    refine ⟨?_, h.2⟩
    intro hmem
    rcases List.mem_cons.mp hmem with he | he
    · exact hne he.symm
    · exact h.1 he

end KptvFast

/-- C3: the dedup step keeps only channels whose normalized name and stream
URL are non-empty, returns a sublist of the input in which all keys are
pairwise distinct, represents every input channel with a non-empty key by
exactly the first input channel bearing that key, and is idempotent. -/
theorem c3_remove_duplicates (l : List Channel) :
    (∀ c ∈ removeDuplicates l, (chanKey c).1 ≠ "" ∧ (chanKey c).2 ≠ "") ∧
    (removeDuplicates l).Sublist l ∧
    (removeDuplicates l).Pairwise (fun a b => chanKey a ≠ chanKey b) ∧
    (∀ c ∈ l, (chanKey c).1 ≠ "" → (chanKey c).2 ≠ "" →
      ∃ c2 ∈ removeDuplicates l, chanKey c2 = chanKey c) ∧
    (∀ c ∈ removeDuplicates l, l.find? (fun d => decide (chanKey d = chanKey c)) = some c) ∧
    removeDuplicates (removeDuplicates l) = removeDuplicates l := by
  refine ⟨fun c hc => (removeDuplicatesAux_mem hc).2,
    removeDuplicatesAux_sublist l [],
    removeDuplicatesAux_pairwise l [],
    fun c hc h1 h2 => removeDuplicatesAux_cover l [] c hc h1 h2 (List.not_mem_nil _),
    fun c hc => removeDuplicatesAux_first l [] c hc, ?_⟩
  exact removeDuplicatesAux_stable (removeDuplicates l) []
    (fun c hc => ⟨List.not_mem_nil _, (removeDuplicatesAux_mem hc).2⟩)
    (removeDuplicatesAux_pairwise l [])

/-- Witness for C3 on a concrete list: a later channel with the same
normalized key as the first is dropped, a channel with an empty URL is
dropped, the key of the duplicate is still represented, and dedup is
idempotent there. -/
theorem c3_remove_duplicates_witness :
    removeDuplicates
        [{ name := "News ", stream_url := "url1" }, { name := "NEWS", stream_url := "url1" },
         { name := "Empty", stream_url := "" }, { name := "Other", stream_url := "url2" }]
      = [{ name := "News ", stream_url := "url1" }, { name := "Other", stream_url := "url2" }] ∧
    (∃ c2 ∈ removeDuplicates
        [{ name := "News ", stream_url := "url1" }, { name := "NEWS", stream_url := "url1" },
         { name := "Empty", stream_url := "" }, { name := "Other", stream_url := "url2" }],
      chanKey c2 = chanKey { name := "NEWS", stream_url := "url1" }) ∧
    removeDuplicates (removeDuplicates
        [{ name := "News ", stream_url := "url1" }, { name := "NEWS", stream_url := "url1" },
         { name := "Empty", stream_url := "" }, { name := "Other", stream_url := "url2" }])
      = removeDuplicates
        [{ name := "News ", stream_url := "url1" }, { name := "NEWS", stream_url := "url1" },
         { name := "Empty", stream_url := "" }, { name := "Other", stream_url := "url2" }] := by
  refine ⟨by decide, ?_, ?_⟩
  · exact (c3_remove_duplicates _).2.2.2.1 _ (by decide) (by decide) (by decide)
  · exact (c3_remove_duplicates _).2.2.2.2.2

/-- C9: a channel whose group is absent or empty is excluded whenever
GROUP_INCLUDE is set to a pattern that does not match the empty string,
regardless of the name filters. -/
theorem c9_empty_group_excluded (cfg : FilterConfig) (search : String → String → Bool)
    (channels : List Channel) (c : Channel)
    (hinc : cfg.group_include ≠ "") (hsearch : search cfg.group_include "" = false)
    (hgroup : c.group = "") :
    c ∉ applyFilters cfg search channels := by
  intro hmem
  unfold applyFilters at hmem
  rw [if_neg (fun h => hinc h.2.2.1)] at hmem
  have hk := (List.mem_filter.mp hmem).2
  unfold keepChannel at hk
  rw [hgroup, hsearch] at hk
  simp [decide_eq_true_eq, hinc] at hk

/-- Witness for C9: a channel with no group is excluded under a group-include
pattern (with exact-match search semantics) that does not match the empty
string. -/
theorem c9_empty_group_excluded_witness :
    ({ name := "Test" } : Channel) ∉
      applyFilters { group_include := "News" } (fun p s => p == s)
        [{ name := "Test" }] :=
  c9_empty_group_excluded _ _ _ _ (by decide) (by decide) rfl

namespace KptvFast

/-- The channel numbers produced for one provider result are the expected
ones for its counter window. -/
theorem assignProviderChannels_map (p : String) :
    ∀ (k : Nat) (l : List Channel),
      (assignProviderChannels p k l).map (fun c => c.channel_number) = expectedNumbers k l := by
  intro k l
  induction l generalizing k with
  | nil => rfl
  | cons c cs ih => simp [assignProviderChannels, expectedNumbers, ih]

/-- Expected numbers over an appended list split at the counter offset. -/
theorem expectedNumbers_append (l1 : List Channel) :
    ∀ (l2 : List Channel) (k : Nat),
      expectedNumbers k (l1 ++ l2) = expectedNumbers k l1 ++ expectedNumbers (k + l1.length) l2 := by
  induction l1 with
  | nil => intro l2 k; rfl
  | cons c cs ih =>
    intro l2 k
    have harith : k + 1 + cs.length = k + (cs.length + 1) := by omega
    simp [expectedNumbers, ih, harith]

/-- The numbering stage assigns exactly the expected numbers over the
flattened provider channels. -/
theorem collectProviderResults_map :
    ∀ (rs : List (String × List Channel)) (k : Nat),
      (collectProviderResults k rs).map (fun c => c.channel_number)
        = expectedNumbers k (allProviderChannels rs) := by
  intro rs
  induction rs with
  | nil => intro k; rfl
  | cons r rest ih =>
    intro k
    obtain ⟨pname, chs⟩ := r
    simp [collectProviderResults, allProviderChannels, List.map_append,
      assignProviderChannels_map, expectedNumbers_append, ih]

/-- A channel stamped by the inner loop keeps its upstream number field and,
when that field is present, is assigned exactly that number. -/
theorem assignProviderChannels_explicit (p : String) :
    ∀ (k : Nat) (l : List Channel) (c : Channel), c ∈ assignProviderChannels p k l →
      ∀ n, c.number = some n → c.channel_number = some n := by
  intro k l
  induction l generalizing k with
  | nil => intro c h; simp [assignProviderChannels] at h
  | cons c0 cs ih =>
    intro c h n hn
    rw [assignProviderChannels] at h
    rcases List.mem_cons.mp h with rfl | hmem
    · simp only at hn ⊢
      rw [hn]
      rfl
    · exact ih _ c hmem n hn

/-- Explicit upstream numbers survive the whole numbering stage. -/
theorem collectProviderResults_explicit :
    ∀ (rs : List (String × List Channel)) (k : Nat) (c : Channel),
      c ∈ collectProviderResults k rs → ∀ n, c.number = some n → c.channel_number = some n := by
  intro rs
  induction rs with
  | nil => intro k c h; simp [collectProviderResults] at h
  | cons r rest ih =>
    intro k c h n hn
    obtain ⟨pname, chs⟩ := r
    rw [collectProviderResults] at h
    rcases List.mem_append.mp h with hmem | hmem
    · exact assignProviderChannels_explicit pname k chs c hmem n hn
    · exact ih _ c hmem n hn

/-- When every channel lacks an upstream number, the expected numbers are the
consecutive integers from the initial counter value. -/
theorem expectedNumbers_all_none :
    ∀ (l : List Channel) (k : Nat), (∀ c ∈ l, c.number = none) →
      expectedNumbers k l = (List.range' k l.length).map some := by
  intro l
  induction l with
  | nil => intro k _; rfl
  | cons c cs ih =>
    intro k hall
    have hc : c.number = none := hall c (List.mem_cons_self _ _)
    rw [expectedNumbers, List.length_cons, List.range'_succ, List.map_cons,
      ih (k + 1) (fun d hd => hall d (List.mem_cons_of_mem _ hd)), hc]
    rfl

/-- Filtering by the negation of a predicate keeps exactly the channels the
positive filter drops. -/
theorem length_filter_not_eq_sub (p : Channel → Bool) :
    ∀ l : List Channel, (l.filter fun a => !p a).length = l.length - (l.filter p).length := by
  intro l
  induction l with
  | nil => rfl
  | cons c cs ih =>
    have hle : (cs.filter p).length ≤ cs.length := List.length_filter_le p cs
    by_cases hc : p c = true
    · simp [List.filter_cons, hc, ih]
    · have hc' : p c = false := by
        cases h : p c
        · rfl
        · exact absurd h hc
      simp [List.filter_cons, hc', ih]
      omega

end KptvFast

/-- C1 (amended): in the numbering stage of the concurrent fetch, every
channel is assigned its explicit upstream number when present; a channel
lacking one is assigned the value of the shared counter, which starts at 1
and advances once per channel processed (including explicitly numbered
ones); consequently the fallback numbers are the sequential integers
starting at 1 exactly in the case where no processed channel carries an
explicit upstream number. -/
theorem c1_channel_numbering (results : List (String × List Channel)) :
    ((getAllChannelsNumbered results).map (fun c => c.channel_number)
        = expectedNumbers 1 (allProviderChannels results)) ∧
    (∀ c ∈ getAllChannelsNumbered results, ∀ n, c.number = some n →
        c.channel_number = some n) ∧
    ((∀ c ∈ allProviderChannels results, c.number = none) →
      (getAllChannelsNumbered results).map (fun c => c.channel_number)
        = (List.range' 1 (allProviderChannels results).length).map some) := by
  refine ⟨collectProviderResults_map results 1,
    fun c hc n hn => collectProviderResults_explicit results 1 c hc n hn, ?_⟩
  intro hall
  have h := collectProviderResults_map results 1
  rw [expectedNumbers_all_none _ 1 hall] at h
  exact h

/-- Counterexample to C1 as stated: with one provider returning a channel
with upstream number 42 followed by a channel without one, the unnumbered
channel is assigned channel number 2, not 1, so the numbers assigned to
channels lacking an upstream number do not form a sequence starting at 1. -/
theorem c1_counterexample :
    ((getAllChannelsNumbered
        [("demo", [{ name := "a", stream_url := "u1", number := some 42 },
                   { name := "b", stream_url := "u2" }])]).filter
        (fun c => c.number == none)).map (fun c => c.channel_number) = [some 2] ∧
    (some 2 : Option Nat) ≠ some 1 := by
  decide

/-- Witness for C1: the explicitly numbered channel keeps 42 in any position,
and a catalogue with no upstream numbers receives 1, 2 in order. -/
theorem c1_channel_numbering_witness :
    (({ name := "a", stream_url := "u1", provider := "demo", number := some 42,
        channel_number := some 42 } : Channel).channel_number = some 42) ∧
    ((getAllChannelsNumbered
        [("q", [{ name := "a", stream_url := "u" }, { name := "b", stream_url := "v" }])]).map
        (fun c => c.channel_number) = [some 1, some 2]) := by
  constructor
  · exact (c1_channel_numbering
      [("demo", [{ name := "a", stream_url := "u1", number := some 42 },
                 { name := "b", stream_url := "u2" }])]).2.1
      _ (by decide) 42 rfl
  · have h := (c1_channel_numbering
      [("q", [{ name := "a", stream_url := "u" }, { name := "b", stream_url := "v" }])]).2.2
      (by decide)
    rw [h]
    decide

/-- C5: when the Stirr native API yields fewer than 10 channels and the M3U
fallback is non-empty, the merged list is the native channels followed by
exactly those fallback channels whose lowercased name is not among the
native lowercased names, so its length is the native count plus the fallback
count minus the number of fallback channels sharing a name with a native
channel. -/
theorem c5_stirr_merge (api m3u : List Channel) (hlen : api.length < 10) (hne : m3u ≠ []) :
    stirrMergeChannels api m3u
      = api ++ m3u.filter
          (fun ch => !((api.map (fun c => strLower c.name)).contains (strLower ch.name))) ∧
    (stirrMergeChannels api m3u).length
      = api.length + (m3u.length - (m3u.filter
          (fun ch => (api.map (fun c => strLower c.name)).contains (strLower ch.name))).length) := by
  have hempty : m3u.isEmpty = false := by
    cases m3u
    · exact absurd rfl hne
    · rfl
  have heq : stirrMergeChannels api m3u
      = api ++ m3u.filter
          (fun ch => !((api.map (fun c => strLower c.name)).contains (strLower ch.name))) := by
    unfold stirrMergeChannels
    rw [if_pos hlen, hempty]
    rfl
  refine ⟨heq, ?_⟩
  rw [heq, List.length_append,
    length_filter_not_eq_sub (fun ch => (api.map (fun c => strLower c.name)).contains (strLower ch.name)) m3u]

/-- Witness for C5 mirroring the claim's example: 3 native channels, 50
fallback channels of which 2 share a case-insensitive name with a native
channel, giving 3 + (50 - 2) = 51 merged channels. -/
theorem c5_stirr_merge_witness :
    stirrApiDemo.length < 10 ∧ stirrM3uDemo ≠ [] ∧
    (stirrMergeChannels stirrApiDemo stirrM3uDemo).length = 51 := by
  refine ⟨by decide, by decide, ?_⟩
  have h := (c5_stirr_merge stirrApiDemo stirrM3uDemo (by decide) (by decide)).2
  rw [h]
  decide

namespace KptvFast

/-- Every channel kept by one source's channel loop has a truthy id that was
not in the added set. -/
theorem combineKept_mem {l : List XmlChannel} :
    ∀ {added : List String} {ch : XmlChannel}, ch ∈ combineKept added l →
      ch.id ∉ added ∧ ch.id ≠ "" := by
  induction l with
  | nil => intro added ch h; simp [combineKept] at h
  | cons ch0 rest ih =>
    intro added ch h
    by_cases hc : ch0.id ≠ "" ∧ ch0.id ∉ added
    · rw [combineKept, if_pos hc] at h
      rcases List.mem_cons.mp h with rfl | hmem
      · exact ⟨hc.2, hc.1⟩
      · have h2 := ih hmem
        exact ⟨fun hs => h2.1 (List.mem_cons_of_mem _ hs), h2.2⟩
    · rw [combineKept, if_neg hc] at h
      exact ih h

/-- The kept channels of one source carry pairwise distinct ids. -/
theorem combineKept_pairwise (l : List XmlChannel) :
    ∀ added, (combineKept added l).Pairwise (fun a b => a.id ≠ b.id) := by
  induction l with
  | nil => intro added; simp [combineKept]
  | cons ch0 rest ih =>
    intro added
    rw [combineKept]
    split
    · refine List.Pairwise.cons ?_ (ih _)
      intro b hb hkey
      exact (combineKept_mem hb).1 (by rw [← hkey]; exact List.mem_cons_self _ _)
    · exact ih _

/-- Every kept channel is the first channel of the list bearing its id. -/
theorem combineKept_first (l : List XmlChannel) :
    ∀ added ch, ch ∈ combineKept added l →
      l.find? (fun d => decide (d.id = ch.id)) = some ch := by
  induction l with
  | nil => intro added ch h; simp [combineKept] at h
  | cons ch0 rest ih =>
    intro added ch h
    rw [combineKept] at h
    by_cases hc : ch0.id ≠ "" ∧ ch0.id ∉ added
    · rw [if_pos hc] at h
      rcases List.mem_cons.mp h with rfl | hmem
      · rw [List.find?_cons_of_pos _ (by simp)]
      · have hne : ch0.id ≠ ch.id := by
          intro he
          exact (combineKept_mem hmem).1 (by rw [← he]; exact List.mem_cons_self _ _)
        rw [List.find?_cons_of_neg _ (by simp [hne])]
        exact ih _ _ hmem
    · rw [if_neg hc] at h
      have h2 := combineKept_mem h
      have hne : ch0.id ≠ ch.id := by
        intro he
        exact hc ⟨by rw [he]; exact h2.2, by rw [he]; exact h2.1⟩
      rw [List.find?_cons_of_neg _ (by simp [hne])]
      exact ih _ _ h

/-- Every channel with a truthy id not in the added set is represented among
the kept channels by one with the same id. -/
theorem combineKept_cover (l : List XmlChannel) :
    ∀ added (ch : XmlChannel), ch ∈ l → ch.id ≠ "" → ch.id ∉ added →
      ∃ ch2 ∈ combineKept added l, ch2.id = ch.id := by
  induction l with
  | nil => intro added ch hc; simp at hc
  | cons ch0 rest ih =>
    intro added ch hc h1 hs
    rw [combineKept]
    rcases List.mem_cons.mp hc with rfl | hmem
    · rw [if_pos ⟨h1, hs⟩]
      exact ⟨ch, List.mem_cons_self _ _, rfl⟩
    · by_cases hcond : ch0.id ≠ "" ∧ ch0.id ∉ added
      · rw [if_pos hcond]
        by_cases hk : ch.id = ch0.id
        · exact ⟨ch0, List.mem_cons_self _ _, hk.symm⟩
        · have hs2 : ch.id ∉ ch0.id :: added := by
            intro hmem2
            rcases List.mem_cons.mp hmem2 with h | h
            · exact hk h
            · exact hs h
          obtain ⟨ch2, hc2, hkey⟩ := ih _ ch hmem h1 hs2
          exact ⟨ch2, List.mem_cons_of_mem _ hc2, hkey⟩
      · rw [if_neg hcond]
        exact ih _ ch hmem h1 hs

/-- Splitting the channel loop over an appended list threads the added set
through the first part. -/
theorem combineKept_append (l1 : List XmlChannel) :
    ∀ (l2 : List XmlChannel) added,
      combineKept added (l1 ++ l2)
        = combineKept added l1 ++ combineKept (combineSeen added l1) l2 := by
  induction l1 with
  | nil => intro l2 added; rfl
  | cons ch0 rest ih =>
    intro l2 added
    by_cases hc : ch0.id ≠ "" ∧ ch0.id ∉ added
    · rw [List.cons_append, combineKept, if_pos hc, combineKept, if_pos hc,
        combineSeen, if_pos hc, ih, List.cons_append]
    · rw [List.cons_append, combineKept, if_neg hc, combineKept, if_neg hc,
        combineSeen, if_neg hc, ih]

/-- The per-source combination over the document list equals one channel
loop over the flattened channel elements. -/
theorem combineDocsChannels_eq_flat :
    ∀ (docs : List SourceDoc) added,
      combineDocsChannels added docs = combineKept added (allSourceChannels docs) := by
  intro docs
  induction docs with
  | nil => intro added; rfl
  | cons d ds ih =>
    intro added
    rw [combineDocsChannels, allSourceChannels, combineKept_append, ih]

end KptvFast

/-- C7: combining source documents appends every programme of every
successful source in order with no deduplication, while each channel id
occurs at most once in the result, each emitted channel element is the first
element bearing its id across the sources in completion order, and every
truthy channel id of any source is represented. -/
theorem c7_epg_combination (docs : List SourceDoc) :
    (getCombinedProgrammes docs = (docs.map (fun d => d.programmes)).flatten) ∧
    ((getCombinedChannels docs).map (fun ch => ch.id)).Nodup ∧
    (∀ ch ∈ getCombinedChannels docs,
      (allSourceChannels docs).find? (fun d => decide (d.id = ch.id)) = some ch) ∧
    (∀ ch ∈ allSourceChannels docs, ch.id ≠ "" →
      ∃ ch2 ∈ getCombinedChannels docs, ch2.id = ch.id) := by
  refine ⟨?_, ?_, ?_, ?_⟩
  · induction docs with
    | nil => rfl
    | cons d ds ih =>
      rw [getCombinedProgrammes, combineDocsProgrammes, List.map_cons, List.flatten_cons]
      rw [getCombinedProgrammes] at ih
      rw [ih]
  · rw [getCombinedChannels, combineDocsChannels_eq_flat]
    exact List.pairwise_map.mpr (combineKept_pairwise (allSourceChannels docs) [])
  · intro ch hch
    rw [getCombinedChannels, combineDocsChannels_eq_flat] at hch
    exact combineKept_first _ _ _ hch
  · intro ch hch hid
    rw [getCombinedChannels, combineDocsChannels_eq_flat]
    exact combineKept_cover _ _ ch hch hid (List.not_mem_nil _)

/-- Witness for C7 on two concrete sources: the duplicate id is emitted once
(first occurrence wins), every programme of both sources is kept including
an identical pair, and the second source's duplicate id is still
represented. -/
theorem c7_epg_combination_witness :
    (getCombinedProgrammes
        [{ channels := [{ id := "a", content := "1" }], programmes := [{ content := "p1" }] },
         { channels := [{ id := "a", content := "2" }, { id := "b", content := "3" }],
           programmes := [{ content := "p1" }, { content := "p2" }] }]
      = [{ content := "p1" }, { content := "p1" }, { content := "p2" }]) ∧
    ((allSourceChannels
        [{ channels := [{ id := "a", content := "1" }], programmes := [{ content := "p1" }] },
         { channels := [{ id := "a", content := "2" }, { id := "b", content := "3" }],
           programmes := [{ content := "p1" }, { content := "p2" }] }]).find?
        (fun d => decide (d.id = "a")) = some { id := "a", content := "1" }) ∧
    (∃ ch2 ∈ getCombinedChannels
        [{ channels := [{ id := "a", content := "1" }], programmes := [{ content := "p1" }] },
         { channels := [{ id := "a", content := "2" }, { id := "b", content := "3" }],
           programmes := [{ content := "p1" }, { content := "p2" }] }],
      ch2.id = ({ id := "a", content := "2" } : XmlChannel).id) := by
  refine ⟨?_, ?_, ?_⟩
  · have h := (c7_epg_combination
      [{ channels := [{ id := "a", content := "1" }], programmes := [{ content := "p1" }] },
       { channels := [{ id := "a", content := "2" }, { id := "b", content := "3" }],
         programmes := [{ content := "p1" }, { content := "p2" }] }]).1
    rw [h]
    decide
  · exact (c7_epg_combination
      [{ channels := [{ id := "a", content := "1" }], programmes := [{ content := "p1" }] },
       { channels := [{ id := "a", content := "2" }, { id := "b", content := "3" }],
         programmes := [{ content := "p1" }, { content := "p2" }] }]).2.2.1
      { id := "a", content := "1" } (by decide)
  · exact (c7_epg_combination
      [{ channels := [{ id := "a", content := "1" }], programmes := [{ content := "p1" }] },
       { channels := [{ id := "a", content := "2" }, { id := "b", content := "3" }],
         programmes := [{ content := "p1" }, { content := "p2" }] }]).2.2.2
      { id := "a", content := "2" } (by decide) (by decide)

/-- C10: a set-enabled-sources call in which no requested name is a known
source leaves the whole aggregator state unchanged, while a call containing
at least one known name installs the known subset as the enabled list and
resets the cache and its expiry, leaving the source table intact. -/
theorem c10_set_enabled_sources (st : EPGAggState) (sources : List String) :
    ((∀ s ∈ sources, s ∉ st.epgSources.map (fun p => p.1)) →
      setEnabledSources st sources = st) ∧
    ((∃ s ∈ sources, s ∈ st.epgSources.map (fun p => p.1)) →
      (setEnabledSources st sources).enabledSources
          = sources.filter (fun s => decide (s ∈ st.epgSources.map (fun p => p.1))) ∧
      (setEnabledSources st sources).cache = none ∧
      (setEnabledSources st sources).cacheExpiry = 0 ∧
      (setEnabledSources st sources).epgSources = st.epgSources) := by
  constructor
  · intro hall
    have hnil : sources.filter (fun s => decide (s ∈ st.epgSources.map (fun p => p.1))) = [] := by
      rw [List.filter_eq_nil_iff]
      intro a ha
      simp only [decide_eq_true_eq]
      exact hall a ha
    unfold setEnabledSources
    rw [hnil]
    rfl
  · intro hex
    obtain ⟨s, hs, hmem⟩ := hex
    have hmemf : s ∈ sources.filter (fun s => decide (s ∈ st.epgSources.map (fun p => p.1))) :=
      List.mem_filter.mpr ⟨hs, by simpa using hmem⟩
    have hne : (sources.filter
        (fun s => decide (s ∈ st.epgSources.map (fun p => p.1)))).isEmpty = false := by
      cases hF : sources.filter (fun s => decide (s ∈ st.epgSources.map (fun p => p.1))) with
      | nil => rw [hF] at hmemf; simp at hmemf
      | cons a as => rfl
    simp only [setEnabledSources]
    rw [hne]
    simp

/-- Witness for C10: on the freshly initialised aggregator, a call with only
unknown names is a no-op, and a call naming pluto (plus an unknown name)
installs exactly the known subset and clears the cache. -/
theorem c10_set_enabled_sources_witness :
    setEnabledSources initialEpgAggState ["bogus", "nothere"] = initialEpgAggState ∧
    (setEnabledSources initialEpgAggState ["pluto", "bogus"]).enabledSources = ["pluto"] ∧
    (setEnabledSources initialEpgAggState ["pluto", "bogus"]).cache = none := by
  refine ⟨(c10_set_enabled_sources _ _).1 (by decide), ?_, ?_⟩
  · have h := ((c10_set_enabled_sources initialEpgAggState ["pluto", "bogus"]).2
      ⟨"pluto", by decide, by decide⟩).1
    rw [h]
    decide
  · exact ((c10_set_enabled_sources initialEpgAggState ["pluto", "bogus"]).2
      ⟨"pluto", by decide, by decide⟩).2.1

/-- Counterexample to C2 as stated: playlist_usa_vod.m3u8 does match the usa
and us country filters, but its displayed source name is Usa Vod, not the
special-cased literal USA, so the claimed conjunction fails. -/
theorem c2_counterexample :
    ¬ (matchesCountryFilter ["usa"] "playlist_usa_vod.m3u8" = true ∧
       matchesCountryFilter ["us"] "playlist_usa_vod.m3u8" = true ∧
       sourceNameOf "playlist_usa_vod.m3u8" = "USA") := by
  decide

/-- C2 (amended): playlist_usa_vod.m3u8 matches a country filter of usa and
of us, its displayed source name is the title-cased Usa Vod, and the USA
special case fires only when the stripped name is exactly usa, as for
playlist_usa.m3u8. -/
theorem c2_freetv_filter_and_name :
    matchesCountryFilter ["usa"] "playlist_usa_vod.m3u8" = true ∧
    matchesCountryFilter ["us"] "playlist_usa_vod.m3u8" = true ∧
    sourceNameOf "playlist_usa_vod.m3u8" = "Usa Vod" ∧
    sourceNameOf "playlist_usa.m3u8" = "USA" := by
  decide

/-- C8: the playlist generator emits, for the given concrete channel,
exactly the claimed EXTINF line followed by the stream URL and a blank line;
and in general the attribute list is the fixed-order list in which each
attribute appears exactly when its source field is non-empty. -/
theorem c8_playlist_entry :
    (channelLines
        { id := "x-1", name := "Test", logo := "http://l", group := "News",
          provider := "x", stream_url := "http://s", channel_number := some 5 }
      = ["#EXTINF:-1 tvg-id=\"x-1\" tvg-name=\"Test\" tvg-logo=\"http://l\" group-title=\"News\" tvg-chno=\"5\" provider=\"x\",Test",
         "http://s", ""]) ∧
    (∀ c : Channel, extinfAttrs c = specAttrs c) ∧
    (getPlaylistLines
        [{ id := "x-1", name := "Test", logo := "http://l", group := "News",
           provider := "x", stream_url := "http://s", channel_number := some 5 }]
      = ["#EXTM3U",
         "#EXTINF:-1 tvg-id=\"x-1\" tvg-name=\"Test\" tvg-logo=\"http://l\" group-title=\"News\" tvg-chno=\"5\" provider=\"x\",Test",
         "http://s", ""]) := by
  refine ⟨by decide, ?_, by decide⟩
  intro c
  unfold extinfAttrs specAttrs
  cases hcn : c.channel_number with
  | none => split_ifs <;> rfl
  | some n =>
    by_cases hn : n = 0
    · subst hn
      split_ifs <;> rfl
    · split_ifs <;> simp [hn, List.reduceOption]
